import Mathlib

/-!
Shallow embedding of the chunk materialization core of the repository
(`src/maps/spawning.rs`): the types `SpawnedChunk` / `SpawnedTile`, the
reconciliation function `apply_chunk` and the teardown function
`despawn_chunk`.

Modelling conventions:
* Bevy `Entity` ids, mesh handles and material handles are `Nat`.
* `Commands` / `Assets<StandardMaterial>` side effects are threaded
  explicitly through an `ApplyState`: the ordered list of backend calls
  issued so far, plus counters producing fresh entity ids
  (`Commands.spawn_bundle(..).id()`) and fresh material handles
  (`materials.add(..)`), plus a counter of emitted `warn!` logs.
* A Rust panic (`unwrap`, `expect`, `todo!`) is modelled by the whole
  call returning `none`.
* `UVec2` / `Vec3` coordinates are `Nat` components; the `u32 -> f32`
  conversion at the observed magnitudes is exact, and the `Vec3` built by
  the code is `(x, 0.0, y)`, modelled as the triple `(x, 0, y)`.
-/

namespace Ssnt

/-- Modelled from the spec: `CHUNK_SIZE` lives in `maps/mod.rs`, which is
not part of the provided sources; the spec fixes the chunk side length to
16 in its worked example. -/
def CHUNK_SIZE : Nat := 16

/-- Modelled from the spec: `CHUNK_LENGTH = CHUNK_SIDE²`. -/
def CHUNK_LENGTH : Nat := CHUNK_SIZE * CHUNK_SIZE

/-- Modelled from the spec: the occupant snapshot compared by the
reconciler is the definition id plus instance-specific variant fields
(`TurfData` is declared in the absent `maps/mod.rs`). -/
structure TurfData where
  definition_id : Nat
  variant : Nat
deriving DecidableEq

/-- Modelled from the spec and the `match` in `apply_chunk`: a turf mesh is
either a single mesh handle or one of the not-yet-implemented multi-mesh
variants (hitting those triggers `todo!()` in the code). -/
inductive TurfMesh where
  | single (mesh : Nat)
  | multi
deriving DecidableEq

/-- Modelled from the spec: a turf definition carries a display name and an
optionally-loaded mesh. -/
structure TurfDefinition where
  name : String
  mesh : Option TurfMesh
deriving DecidableEq

/-- Modelled from the spec and the usage `tile_data.and_then(|t| t.turf)`:
a logical tile optionally holds a turf occupant. -/
structure TileData where
  turf : Option TurfData
deriving DecidableEq

/-- Modelled from the spec (§6 `LogicalChunk`) and the field accesses
`data.tiles` / `data.changed_tiles` in `apply_chunk`. -/
structure LogicalChunk where
  tiles : List (Option TileData)
  changed_tiles : List Bool
deriving DecidableEq

/-- Modelled from the spec: the world model consumed by `apply_chunk` —
grid dimensions, chunk lookup and definition lookup. -/
structure MapData where
  size : Nat × Nat
  chunk : Nat → Option LogicalChunk
  turf_definition : Nat → Option TurfDefinition

/-- Modelled from the spec: `MapData::position_from_chunk_index` (absent
`maps/mod.rs`) derives the chunk grid position row-major from the index:
`(index mod width, index div width)`. -/
def MapData.position_from_chunk_index (size : Nat × Nat) (index : Nat) : Nat × Nat :=
  (index % size.1, index / size.1)

/-- Modelled from the spec: `TileData::position_in_chunk` (absent
`maps/mod.rs`) maps a slot index to its row-major `(x, y)` offset inside
the chunk. -/
def TileData.position_in_chunk (index : Nat) : Nat × Nat :=
  (index % CHUNK_SIZE, index / CHUNK_SIZE)

/-- `struct SpawnedTile { spawned_turf: Option<(TurfData, Entity)> }`. -/
structure SpawnedTile where
  spawned_turf : Option (TurfData × Nat)
deriving DecidableEq

/-- `struct SpawnedChunk { spawned_tiles: [Option<SpawnedTile>; CHUNK_LENGTH] }`,
as a list (the fixed length is an invariant supplied by hypotheses). -/
structure SpawnedChunk where
  spawned_tiles : List (Option SpawnedTile)
deriving DecidableEq

/-- `impl Default for SpawnedChunk`: every slot `None`. -/
def SpawnedChunk.default : SpawnedChunk :=
  ⟨List.replicate CHUNK_LENGTH none⟩

/-- The backend calls `apply_chunk` / `despawn_chunk` can issue:
`create` = `commands.spawn_bundle(PbrBundle).id()` followed by
`push_children` under the tilemap entity; `update` =
`commands.entity(e).insert_bundle(PbrBundle)`; `destroy` =
`commands.entity(e).despawn_recursive()`. -/
inductive BackendCall where
  | create (entity : Nat) (mesh : Nat) (material : Nat)
      (position : Nat × Nat × Nat) (parent : Nat)
  | update (entity : Nat) (mesh : Nat) (material : Nat)
      (position : Nat × Nat × Nat)
  | destroy (entity : Nat)
deriving DecidableEq

/-- Explicit side-effect state threaded through the reconciler. -/
structure ApplyState where
  calls : List BackendCall
  next_entity : Nat
  next_material : Nat
  warnings : Nat
deriving DecidableEq

/-- Lines 66–68 of `spawning.rs`:
`chunk_position * UVec2::new(CHUNK_SIZE, CHUNK_SIZE) + TileData::position_in_chunk(index)`
then `Vec3::new(x, 0.0, y)`. -/
def tile_world_position (chunk_position : Nat × Nat) (index : Nat) :
    Nat × Nat × Nat :=
  let p := (chunk_position.1 * CHUNK_SIZE + (TileData.position_in_chunk index).1,
            chunk_position.2 * CHUNK_SIZE + (TileData.position_in_chunk index).2)
  (p.1, 0, p.2)

/-- The body of the `for &index in changed_indicies` loop in
`apply_chunk` (lines 55–130 of `spawning.rs`), acting on one index. -/
def apply_index (map_data : MapData) (chunk_position : Nat × Nat)
    (tilemap_entity : Nat) (data : LogicalChunk)
    (acc : SpawnedChunk × ApplyState) (index : Nat) :
    Option (SpawnedChunk × ApplyState) :=
  let spawned_chunk := acc.1
  let st := acc.2
  match data.tiles.get? index with
  | none => none
  | some tile_data =>
    match spawned_chunk.spawned_tiles.get? index with
    | none => none
    | some spawned_tile =>
      let tile_exists := tile_data.isSome
      let tile_spawned := spawned_tile.isSome
      if !tile_exists && !tile_spawned then
        some (spawned_chunk, st)
      else
        let tile_position := tile_world_position chunk_position index
        match tile_data.bind (fun t => t.turf) with
        | some turf_data =>
          match map_data.turf_definition turf_data.definition_id with
          | none => none
          | some turf_definition =>
            match turf_definition.mesh with
            | none =>
              some (spawned_chunk, { st with warnings := st.warnings + 1 })
            | some turf_mesh =>
              match turf_mesh with
              | TurfMesh.multi => none
              | TurfMesh.single mesh_handle =>
                let tile0 := spawned_tile.getD ⟨none⟩
                match tile0.spawned_turf with
                | some (current_data, entity) =>
                  if turf_data ≠ current_data then
                    some (⟨spawned_chunk.spawned_tiles.set index (some tile0)⟩,
                      { st with
                        next_material := st.next_material + 1,
                        calls := st.calls ++
                          [BackendCall.update entity mesh_handle
                            st.next_material tile_position] })
                  else
                    some (⟨spawned_chunk.spawned_tiles.set index (some tile0)⟩, st)
                | none =>
                  some (⟨spawned_chunk.spawned_tiles.set index
                      (some { tile0 with
                        spawned_turf := some (turf_data, st.next_entity) })⟩,
                    { st with
                      next_entity := st.next_entity + 1,
                      next_material := st.next_material + 1,
                      calls := st.calls ++
                        [BackendCall.create st.next_entity mesh_handle
                          st.next_material tile_position tilemap_entity] })
        | none =>
          if tile_spawned then
            match spawned_tile with
            | none => none
            | some x =>
              match x.spawned_turf with
              | some (_, entity) =>
                some (⟨spawned_chunk.spawned_tiles.set index
                    (some { x with spawned_turf := none })⟩,
                  { st with calls := st.calls ++ [BackendCall.destroy entity] })
              | none => some (spawned_chunk, st)
          else
            some (spawned_chunk, st)

/-- Lines 43–52 of `spawning.rs`: with prior state, the indices whose
change marker is set; without prior state, all indices. -/
def changed_indicies (spawned_chunk : Option SpawnedChunk)
    (data : LogicalChunk) : List Nat :=
  match spawned_chunk with
  | some _ => ((data.changed_tiles.enum.filter (fun p => p.2)).map (fun p => p.1))
  | none => List.range data.tiles.length

/-- `apply_chunk` (lines 33–133 of `spawning.rs`). `none` models a panic
(`unwrap` of a missing chunk, `expect` of a missing turf definition,
`todo!()` on a multi mesh, out-of-range slot access). -/
def apply_chunk (spawned_chunk : Option SpawnedChunk) (chunk_index : Nat)
    (map_data : MapData) (tilemap_entity : Nat) (st : ApplyState) :
    Option (SpawnedChunk × ApplyState) :=
  let chunk_position := MapData.position_from_chunk_index map_data.size chunk_index
  match map_data.chunk chunk_index with
  | none => none
  | some data =>
    let idxs := changed_indicies spawned_chunk data
    let sc := spawned_chunk.getD SpawnedChunk.default
    idxs.foldlM (apply_index map_data chunk_position tilemap_entity data) (sc, st)

/-- `despawn_chunk` (lines 135–141 of `spawning.rs`): for every `Some`
spawned tile whose `spawned_turf` is set, despawn the entity recursively. -/
def despawn_chunk (spawned_chunk : SpawnedChunk) : List BackendCall :=
  (spawned_chunk.spawned_tiles.filterMap id).foldl
    (fun calls tile =>
      match tile.spawned_turf with
      | some (_, entity) => calls ++ [BackendCall.destroy entity]
      | none => calls) []

/-- Number of slots currently holding a live backend object. -/
def SpawnedChunk.liveCount (sc : SpawnedChunk) : Nat :=
  sc.spawned_tiles.countP (fun t => (t.bind (fun x => x.spawned_turf)).isSome)

/-- The occupant (turf) of slot `index`, if the tile exists and holds one. -/
def occupant_at (data : LogicalChunk) (index : Nat) : Option TurfData :=
  (data.tiles.get? index).bind (fun t => t.bind (fun td => td.turf))

/-- Whether a logical tile holds a turf occupant. -/
def tile_has_turf (t : Option TileData) : Bool :=
  (t.bind (fun td => td.turf)).isSome

/-- The occupant's definition resolves and its mesh is an available
single mesh. -/
def assets_ok (map_data : MapData) (turf : TurfData) : Bool :=
  match map_data.turf_definition turf.definition_id with
  | some d =>
    match d.mesh with
    | some (TurfMesh.single _) => true
    | _ => false
  | none => false

/-- Recognizer for creation calls. -/
def BackendCall.isCreate : BackendCall → Bool
  | BackendCall.create _ _ _ _ _ => true
  | _ => false

/-- Recognizer for destroy calls. -/
def BackendCall.isDestroy : BackendCall → Bool
  | BackendCall.destroy _ => true
  | _ => false

/-- The world position carried by a call, when it has one. -/
def BackendCall.position? : BackendCall → Option (Nat × Nat × Nat)
  | BackendCall.create _ _ _ p _ => some p
  | BackendCall.update _ _ _ p => some p
  | BackendCall.destroy _ => none

/-- Whether the occupant of slot `i` (if any) has a resolvable definition
with an available single mesh. -/
def slot_assets_ok (map_data : MapData) (data : LogicalChunk) (i : Nat) : Bool :=
  match occupant_at data i with
  | some turf => assets_ok map_data turf
  | none => true

/-- Example world: chunk 0 has an occupied slot 0 (definition 2, resolvable,
single mesh 3), an empty slot 1 and an occupant-less tile at slot 2; only
slot 0 is marked changed. -/
def exWallMap : MapData :=
  { size := (10, 10),
    chunk := fun i =>
      if i = 0 then
        some { tiles := [some ⟨some ⟨2, 0⟩⟩, none, some ⟨none⟩],
               changed_tiles := [true, false, false] }
      else none,
    turf_definition := fun i =>
      if i = 2 then some ⟨"wall", some (TurfMesh.single 3)⟩ else none }

/-- Example world: chunk 0 is a single unoccupied tile whose change marker
is set. -/
def exEmptyMarkedMap : MapData :=
  { size := (1, 1),
    chunk := fun i =>
      if i = 0 then some { tiles := [none], changed_tiles := [true] } else none,
    turf_definition := fun _ => none }

/-- Example world: slot 0 occupied, marked changed, but its definition id 5
does not resolve. -/
def exMissingDefMap : MapData :=
  { size := (1, 1),
    chunk := fun i =>
      if i = 0 then
        some { tiles := [some ⟨some ⟨5, 0⟩⟩], changed_tiles := [true] }
      else none,
    turf_definition := fun _ => none }

/-- Example world: slot 0 occupied, marked changed, definition 5 resolves
but its mesh is not available. -/
def exNoMeshMap : MapData :=
  { size := (1, 1),
    chunk := fun i =>
      if i = 0 then
        some { tiles := [some ⟨some ⟨5, 0⟩⟩], changed_tiles := [true] }
      else none,
    turf_definition := fun i => if i = 5 then some ⟨"wall", none⟩ else none }

/-- Example world: slot 0 occupied by definition 2, marked changed; both
definition 1 (mesh 10) and definition 2 (mesh 11) resolve. -/
def exUpdateMap : MapData :=
  { size := (1, 1),
    chunk := fun i =>
      if i = 0 then
        some { tiles := [some ⟨some ⟨2, 0⟩⟩], changed_tiles := [true] }
      else none,
    turf_definition := fun i =>
      if i = 1 then some ⟨"wall", some (TurfMesh.single 10)⟩
      else if i = 2 then some ⟨"glass", some (TurfMesh.single 11)⟩ else none }

/-- Example world: chunk 0 has a marked slot with no occupant and no prior
object, and an unmarked second slot. -/
def exNoopMap : MapData :=
  { size := (1, 1),
    chunk := fun i =>
      if i = 0 then some { tiles := [none, none], changed_tiles := [true, false] }
      else none,
    turf_definition := fun _ => none }

/-- Example world for full materialization: a full-length chunk whose only
occupant sits at slot 0 (definition 2, mesh 3); no markers set. -/
def exFullMap : MapData :=
  { size := (10, 10),
    chunk := fun i =>
      if i = 0 then
        some { tiles := some ⟨some ⟨2, 0⟩⟩ :: List.replicate 255 none,
               changed_tiles := List.replicate 256 false }
      else none,
    turf_definition := fun i =>
      if i = 2 then some ⟨"wall", some (TurfMesh.single 3)⟩ else none }

end Ssnt

namespace Ssnt

theorem get?_replicate_lt {α : Type} (a : α) {n i : Nat} (h : i < n) :
    (List.replicate n a).get? i = some a := by
  induction n generalizing i with
  | zero => omega
  | succ n ih =>
    cases i with
    | zero => rfl
    | succ i =>
      simp only [List.replicate_succ, List.get?_cons_succ]
      exact ih (Nat.lt_of_succ_lt_succ h)

theorem countP_set_succ {α : Type} (p : α → Bool) :
    ∀ (l : List α) (i : Nat) (a b : α), l.get? i = some a → p a = false → p b = true →
      (l.set i b).countP p = l.countP p + 1 := by
  intro l
  induction l with
  | nil => intro i a b h _ _; simp at h
  | cons x xs ih =>
    intro i a b h hpa hpb
    cases i with
    | zero =>
      simp at h
      subst h
      simp [List.countP_cons, hpa, hpb]
    | succ i =>
      simp only [List.get?_cons_succ] at h
      simp only [List.set_cons_succ, List.countP_cons, ih i a b h hpa hpb]
      omega

theorem foldlM_none_of_mem {α β : Type} (f : β → α → Option β) (l : List α) (i : α)
    (hi : i ∈ l) (hnone : ∀ acc, f acc i = none) :
    ∀ acc, l.foldlM f acc = none := by
  induction l with
  | nil => cases hi
  | cons a l ih =>
    intro acc
    rw [List.foldlM_cons]
    rcases List.mem_cons.mp hi with h | h
    · subst h
      rw [hnone acc]
      rfl
    · cases hfa : f acc a with
      | none => rfl
      | some b =>
        exact ih h b

theorem eq_single_of_nodup {l : List Nat} {i : Nat} (hnd : l.Nodup)
    (hmem : i ∈ l) (hall : ∀ j ∈ l, j = i) : l = [i] := by
  cases l with
  | nil => cases hmem
  | cons a l =>
    have ha : a = i := hall a (List.mem_cons_self a l)
    subst ha
    have : l = [] := by
      rw [List.eq_nil_iff_forall_not_mem]
      intro x hx
      have := hall x (List.mem_cons_of_mem a hx)
      subst this
      exact (List.nodup_cons.mp hnd).1 hx
    rw [this]

theorem mem_changed_indicies {sc : SpawnedChunk} {data : LogicalChunk} {i : Nat} :
    i ∈ changed_indicies (some sc) data ↔ data.changed_tiles.get? i = some true := by
  simp only [changed_indicies, List.mem_map, List.mem_filter]
  constructor
  · rintro ⟨⟨n, b⟩, ⟨hmem, hb⟩, rfl⟩
    have hb' : b = true := by simpa using hb
    subst hb'
    simpa using List.mem_enum_iff_get?.mp hmem
  · intro h
    exact ⟨(i, true), ⟨List.mem_enum_iff_get?.mpr h, rfl⟩, rfl⟩

theorem changed_indicies_nodup (sc : SpawnedChunk) (data : LogicalChunk) :
    (changed_indicies (some sc) data).Nodup := by
  simp only [changed_indicies]
  have hsub : ((data.changed_tiles.enum.filter (fun p => p.2)).map Prod.fst).Sublist
      (data.changed_tiles.enum.map Prod.fst) :=
    (List.filter_sublist _).map Prod.fst
  rw [List.enum_map_fst] at hsub
  exact hsub.nodup (List.nodup_range _)

theorem changed_indicies_nil {sc : SpawnedChunk} {data : LogicalChunk}
    (h : ∀ b ∈ data.changed_tiles, b = false) :
    changed_indicies (some sc) data = [] := by
  rw [List.eq_nil_iff_forall_not_mem]
  intro i hi
  have := mem_changed_indicies.mp hi
  have : (true : Bool) ∈ data.changed_tiles := List.get?_mem this
  have := h _ this
  simp at this

theorem changed_indicies_single {sc : SpawnedChunk} {data : LogicalChunk} {i : Nat}
    (hi : data.changed_tiles.get? i = some true)
    (honly : ∀ j b, data.changed_tiles.get? j = some b → b = true → j = i) :
    changed_indicies (some sc) data = [i] := by
  apply eq_single_of_nodup (changed_indicies_nodup sc data)
  · exact mem_changed_indicies.mpr hi
  · intro j hj
    exact honly j true (mem_changed_indicies.mp hj) rfl

end Ssnt

namespace Ssnt
theorem apply_index_shape {md : MapData} {cp : Nat × Nat} {te : Nat} {data : LogicalChunk}
    {sc : SpawnedChunk} {st : ApplyState} {i : Nat} {r : SpawnedChunk × ApplyState}
    (h : apply_index md cp te data (sc, st) i = some r) :
    ∃ new, r.2.calls = st.calls ++ new ∧ new.length ≤ 1 ∧
      (r.1 = sc ∨ ∃ t, r.1 = ⟨sc.spawned_tiles.set i (some t)⟩) := by
  cases htile : data.tiles.get? i with
  | none =>
    simp only [apply_index, htile] at h
    exact Option.noConfusion h
  | some td =>
    cases hslot : sc.spawned_tiles.get? i with
    | none =>
      simp only [apply_index, htile, hslot] at h
      exact Option.noConfusion h
    | some slotv =>
      simp only [apply_index, htile, hslot] at h
      repeat' split at h
      all_goals (first
        | (exfalso; exact Option.noConfusion h)
        | (injection h with h; subst h))
      all_goals first
        | exact ⟨[], (List.append_nil _).symm, Nat.zero_le 1, Or.inl rfl⟩
        | exact ⟨[], (List.append_nil _).symm, Nat.zero_le 1, Or.inr ⟨_, rfl⟩⟩
        | exact ⟨_, rfl, Nat.le_refl 1, Or.inl rfl⟩
        | exact ⟨_, rfl, Nat.le_refl 1, Or.inr ⟨_, rfl⟩⟩
end Ssnt
namespace Ssnt

theorem apply_index_shape2 {md : MapData} {cp : Nat × Nat} {te : Nat} {data : LogicalChunk}
    {sc sc' : SpawnedChunk} {st st' : ApplyState} {i : Nat}
    (h : apply_index md cp te data (sc, st) i = some (sc', st')) :
    ∃ new, st'.calls = st.calls ++ new ∧ new.length ≤ 1 ∧
      (sc' = sc ∨ ∃ t, sc' = ⟨sc.spawned_tiles.set i (some t)⟩) :=
  apply_index_shape h

theorem foldl_shape (md : MapData) (cp : Nat × Nat) (te : Nat) (data : LogicalChunk) :
    ∀ (l : List Nat) (sc : SpawnedChunk) (st : ApplyState) (r : SpawnedChunk × ApplyState),
    l.foldlM (apply_index md cp te data) (sc, st) = some r →
    (∃ new, r.2.calls = st.calls ++ new ∧ new.length ≤ l.length) ∧
    (∀ j, j ∉ l → r.1.spawned_tiles.get? j = sc.spawned_tiles.get? j) ∧
    (∀ j t, sc.spawned_tiles.get? j = some (some t) →
      ∃ t', r.1.spawned_tiles.get? j = some (some t')) := by
  intro l
  induction l with
  | nil =>
    intro sc st r h
    rw [List.foldlM_nil] at h
    injection h with h
    subst h
    exact ⟨⟨[], (List.append_nil _).symm, Nat.le_refl 0⟩,
      fun _ _ => rfl, fun j t ht => ⟨t, ht⟩⟩
  | cons a l ih =>
    intro sc st r h
    rw [List.foldlM_cons] at h
    cases hstep : apply_index md cp te data (sc, st) a with
    | none =>
      rw [hstep] at h
      exact Option.noConfusion h
    | some r1 =>
      rw [hstep] at h
      obtain ⟨sc1, st1⟩ := r1
      have h' : l.foldlM (apply_index md cp te data) (sc1, st1) = some r := h
      obtain ⟨new1, hc1, hl1, hor⟩ := apply_index_shape2 hstep
      obtain ⟨⟨new2, hc2, hl2⟩, hframe2, houter2⟩ := ih sc1 st1 r h'
      refine ⟨⟨new1 ++ new2, ?_, ?_⟩, ?_, ?_⟩
      · rw [hc2, hc1, List.append_assoc]
      · simp only [List.length_append, List.length_cons]
        omega
      · intro j hj
        have hja : j ≠ a := fun he => hj (he ▸ List.mem_cons_self a l)
        have hjl : j ∉ l := fun he => hj (List.mem_cons_of_mem a he)
        rw [hframe2 j hjl]
        rcases hor with heq | ⟨t, heq⟩
        · rw [heq]
        · rw [heq]
          exact List.get?_set_ne _ _ (fun he => hja he.symm)
      · intro j t ht
        rcases hor with heq | ⟨u, heq⟩
        · exact houter2 j t (heq ▸ ht)
        · by_cases hja : j = a
          · subst hja
            have : sc1.spawned_tiles.get? j = some (some u) := by
              rw [heq]
              have := List.get?_set_eq (some u) j sc.spawned_tiles
              rw [this, ht]
              rfl
            exact houter2 j u this
          · have : sc1.spawned_tiles.get? j = some (some t) := by
              rw [heq]
              rw [List.get?_set_ne _ _ (fun he => hja he.symm)]
              exact ht
            exact houter2 j t this
end Ssnt
namespace Ssnt


theorem apply_chunk_single {sc : SpawnedChunk} {ci : Nat} {md : MapData} {te : Nat}
    {st : ApplyState} {data : LogicalChunk} {i : Nat}
    (hchunk : md.chunk ci = some data)
    (hi : data.changed_tiles.get? i = some true)
    (honly : ∀ j b, data.changed_tiles.get? j = some b → b = true → j = i) :
    apply_chunk (some sc) ci md te st =
      apply_index md (MapData.position_from_chunk_index md.size ci) te data (sc, st) i := by
  rw [apply_chunk]
  simp only [hchunk, changed_indicies_single hi honly, Option.getD_some,
    List.foldlM_cons, List.foldlM_nil]
  cases apply_index md (MapData.position_from_chunk_index md.size ci) te data (sc, st) i with
  | none => rfl
  | some r => rfl


theorem apply_index_unoccupied {md : MapData} {cp : Nat × Nat} {te : Nat}
    {data : LogicalChunk} {sc : SpawnedChunk} {st : ApplyState} {i : Nat}
    {t : Option TileData}
    (htile : data.tiles.get? i = some t)
    (hturf : t.bind (fun td => td.turf) = none)
    (hslot : sc.spawned_tiles.get? i = some none) :
    apply_index md cp te data (sc, st) i = some (sc, st) := by
  cases t with
  | none =>
    simp only [apply_index, htile, hslot, Option.isSome_none, Bool.not_false, Bool.and_self]
    rfl
  | some td =>
    simp only [apply_index, htile, hslot, hturf, Option.isSome_some, Option.isSome_none,
      Bool.not_true, Bool.not_false, Bool.and_true, Bool.false_and]
    rfl

theorem apply_index_removal {md : MapData} {cp : Nat × Nat} {te : Nat}
    {data : LogicalChunk} {sc : SpawnedChunk} {st : ApplyState} {i : Nat}
    {t : Option TileData} {d : TurfData} {ent : Nat}
    (htile : data.tiles.get? i = some t)
    (hturf : t.bind (fun td => td.turf) = none)
    (hslot : sc.spawned_tiles.get? i = some (some ⟨some (d, ent)⟩)) :
    apply_index md cp te data (sc, st) i =
      some (⟨sc.spawned_tiles.set i (some ⟨none⟩)⟩,
        { st with calls := st.calls ++ [BackendCall.destroy ent] }) := by
  simp only [apply_index, htile, hslot, hturf, Option.isSome_some,
    Bool.not_true, Bool.and_false]
  rfl

theorem apply_index_skip_mesh {md : MapData} {cp : Nat × Nat} {te : Nat}
    {data : LogicalChunk} {sc : SpawnedChunk} {st : ApplyState} {i : Nat}
    {t : Option TileData} {turf : TurfData} {d : TurfDefinition}
    (htile : data.tiles.get? i = some t)
    (hturf : t.bind (fun td => td.turf) = some turf)
    (hslot : (sc.spawned_tiles.get? i).isSome = true)
    (hdef : md.turf_definition turf.definition_id = some d)
    (hmesh : d.mesh = none) :
    apply_index md cp te data (sc, st) i =
      some (sc, { st with warnings := st.warnings + 1 }) := by
  obtain ⟨td, rfl, hturf'⟩ := Option.bind_eq_some.mp hturf
  obtain ⟨slotv, hslot'⟩ := Option.isSome_iff_exists.mp hslot
  simp only [apply_index, htile, hslot', hturf, hdef, hmesh, Option.isSome_some,
    Bool.not_true, Bool.false_and]
  rfl

theorem apply_index_create {md : MapData} {cp : Nat × Nat} {te : Nat}
    {data : LogicalChunk} {sc : SpawnedChunk} {st : ApplyState} {i : Nat}
    {t : Option TileData} {turf : TurfData} {d : TurfDefinition} {mh : Nat}
    {slotv : Option SpawnedTile}
    (htile : data.tiles.get? i = some t)
    (hturf : t.bind (fun td => td.turf) = some turf)
    (hslot : sc.spawned_tiles.get? i = some slotv)
    (hnolive : (slotv.getD ⟨none⟩).spawned_turf = none)
    (hdef : md.turf_definition turf.definition_id = some d)
    (hmesh : d.mesh = some (TurfMesh.single mh)) :
    apply_index md cp te data (sc, st) i =
      some (⟨sc.spawned_tiles.set i (some ⟨some (turf, st.next_entity)⟩)⟩,
        { st with
          next_entity := st.next_entity + 1,
          next_material := st.next_material + 1,
          calls := st.calls ++
            [BackendCall.create st.next_entity mh st.next_material
              (tile_world_position cp i) te] }) := by
  obtain ⟨td, rfl, hturf'⟩ := Option.bind_eq_some.mp hturf
  simp only [apply_index, htile, hslot, hturf, hdef, hmesh, hnolive, Option.isSome_some,
    Bool.not_true, Bool.false_and]
  rfl

theorem apply_index_missing_def {md : MapData} {cp : Nat × Nat} {te : Nat}
    {data : LogicalChunk} {i : Nat} {turf : TurfData}
    (hocc : occupant_at data i = some turf)
    (hdef : md.turf_definition turf.definition_id = none) :
    ∀ acc, apply_index md cp te data acc i = none := by
  intro acc
  obtain ⟨t, htile, hturf⟩ := Option.bind_eq_some.mp hocc
  obtain ⟨td, rfl, hturf'⟩ := Option.bind_eq_some.mp hturf
  obtain ⟨sc, st⟩ := acc
  cases hslot : sc.spawned_tiles.get? i with
  | none =>
    simp only [apply_index, htile, hslot]
  | some slotv =>
    simp only [apply_index, htile, hslot, hturf, hdef, Option.isSome_some,
      Bool.not_true, Bool.false_and]
    rfl
end Ssnt
namespace Ssnt

theorem assets_ok_elim {md : MapData} {turf : TurfData} (h : assets_ok md turf = true) :
    ∃ d mh, md.turf_definition turf.definition_id = some d ∧
      d.mesh = some (TurfMesh.single mh) := by
  unfold assets_ok at h
  split at h
  case h_1 d hd =>
    split at h
    case h_1 mh hm => exact ⟨d, mh, hd, hm⟩
    case h_2 => exact absurd h (by simp)
  case h_2 => exact absurd h (by simp)

theorem length_filterMap_eq_countP {α β : Type} (f : α → Option β) :
    ∀ l : List α, (l.filterMap f).length = l.countP (fun a => (f a).isSome) := by
  intro l
  induction l with
  | nil => rfl
  | cons a l ih =>
    cases hf : f a <;>
      simp [List.filterMap_cons, hf, List.countP_cons, ih]

theorem despawn_foldl (l : List SpawnedTile) :
    ∀ acc : List BackendCall,
    l.foldl (fun calls tile =>
      match tile.spawned_turf with
      | some (_, entity) => calls ++ [BackendCall.destroy entity]
      | none => calls) acc =
    acc ++ (l.filterMap (fun t => t.spawned_turf)).map
      (fun p => BackendCall.destroy p.2) := by
  induction l with
  | nil => intro acc; simp
  | cons x xs ih =>
    intro acc
    rw [List.foldl_cons]
    cases hx : x.spawned_turf with
    | none =>
      simp only [hx]
      rw [ih acc]
      simp [List.filterMap_cons, hx]
    | some p =>
      simp only [hx]
      rw [ih (acc ++ [BackendCall.destroy p.2])]
      simp [List.filterMap_cons, hx]

theorem despawn_chunk_eq (sc : SpawnedChunk) :
    despawn_chunk sc =
      (sc.spawned_tiles.filterMap (fun t => t.bind (fun x => x.spawned_turf))).map
        (fun p => BackendCall.destroy p.2) := by
  rw [despawn_chunk, despawn_foldl]
  rw [List.nil_append]
  rw [List.filterMap_filterMap]
  rfl

theorem countP_range_bind {α β : Type} (f : α → Option β) :
    ∀ l : List α,
    (List.range l.length).countP (fun i => ((l.get? i).bind f).isSome) =
      l.countP (fun a => (f a).isSome) := by
  intro l
  induction l with
  | nil => rfl
  | cons a l ih =>
    simp only [List.length_cons, List.range_succ_eq_map, List.countP_cons,
      List.countP_map, List.get?_cons_succ, List.get?_cons_zero, Option.some_bind]
    have hfun : ((fun i => (((a :: l).get? i).bind f).isSome) ∘ Nat.succ) =
        (fun i => ((l.get? i).bind f).isSome) := rfl
    rw [hfun, ih]

end Ssnt
namespace Ssnt

theorem foldl_fresh {md : MapData} {cp : Nat × Nat} {te : Nat} {data : LogicalChunk} :
    ∀ (l : List Nat) (sc : SpawnedChunk) (st : ApplyState),
    l.Nodup →
    (∀ i ∈ l, (data.tiles.get? i).isSome = true ∧
      sc.spawned_tiles.get? i = some none ∧ slot_assets_ok md data i = true) →
    ∃ sc' st', l.foldlM (apply_index md cp te data) (sc, st) = some (sc', st') ∧
      (∃ new, st'.calls = st.calls ++ new ∧
        new.length = l.countP (fun i => (occupant_at data i).isSome) ∧
        ∀ c ∈ new, c.isCreate = true) ∧
      sc'.liveCount = sc.liveCount + l.countP (fun i => (occupant_at data i).isSome) ∧
      (∀ j, j ∉ l → sc'.spawned_tiles.get? j = sc.spawned_tiles.get? j) := by
  intro l
  induction l with
  | nil =>
    intro sc st _ _
    refine ⟨sc, st, rfl, ⟨[], by simp, by simp, by simp⟩, by simp,
      fun _ _ => rfl⟩
  | cons a l ih =>
    intro sc st hnd h
    obtain ⟨hts, hslot, hassets⟩ := h a (List.mem_cons_self a l)
    obtain ⟨t, htile⟩ := Option.isSome_iff_exists.mp hts
    have hocc_eq : occupant_at data a = t.bind (fun td => td.turf) := by
      rw [occupant_at, htile]
      rfl
    obtain ⟨hnda, hndl⟩ := List.nodup_cons.mp hnd
    cases hocc : occupant_at data a with
    | none =>
      have hturf : t.bind (fun td => td.turf) = none := by rw [← hocc_eq]; exact hocc
      have hstep := @apply_index_unoccupied md cp te data sc st a t htile hturf hslot
      obtain ⟨sc', st', hfold, hcalls, hlive, hframe⟩ := ih sc st hndl
        (fun i hi => h i (List.mem_cons_of_mem a hi))
      refine ⟨sc', st', ?_, ?_, ?_, ?_⟩
      · rw [List.foldlM_cons, hstep]
        exact hfold
      · obtain ⟨new, h1, h2, h3⟩ := hcalls
        refine ⟨new, h1, ?_, h3⟩
        rw [List.countP_cons]
        simp only [hocc, Option.isSome_none]
        simpa using h2
      · rw [List.countP_cons]
        simp only [hocc, Option.isSome_none]
        simpa using hlive
      · intro j hj
        exact hframe j (fun hm => hj (List.mem_cons_of_mem a hm))
    | some turf =>
      have hturf : t.bind (fun td => td.turf) = some turf := by rw [← hocc_eq]; exact hocc
      have hassets' : assets_ok md turf = true := by
        simpa only [slot_assets_ok, hocc] using hassets
      obtain ⟨d, mh, hdef, hmesh⟩ := assets_ok_elim hassets'
      have hstep := @apply_index_create md cp te data sc st a t turf d mh none
        htile hturf hslot rfl hdef hmesh
      obtain ⟨sc', st', hfold, hcalls, hlive, hframe⟩ :=
        ih ⟨sc.spawned_tiles.set a (some ⟨some (turf, st.next_entity)⟩)⟩
          { st with
            next_entity := st.next_entity + 1,
            next_material := st.next_material + 1,
            calls := st.calls ++
              [BackendCall.create st.next_entity mh st.next_material
                (tile_world_position cp a) te] }
          hndl
          (fun i hi =>
            ⟨(h i (List.mem_cons_of_mem a hi)).1,
             by
               have hne : a ≠ i := fun he => hnda (he ▸ hi)
               rw [List.get?_set_ne _ _ hne]
               exact (h i (List.mem_cons_of_mem a hi)).2.1,
             (h i (List.mem_cons_of_mem a hi)).2.2⟩)
      refine ⟨sc', st', ?_, ?_, ?_, ?_⟩
      · rw [List.foldlM_cons, hstep]
        exact hfold
      · obtain ⟨new, h1, h2, h3⟩ := hcalls
        refine ⟨BackendCall.create st.next_entity mh st.next_material
            (tile_world_position cp a) te :: new, ?_, ?_, ?_⟩
        · rw [h1]
          simp
        · rw [List.countP_cons]
          simp only [hocc, Option.isSome_some, eq_self_iff_true, if_true,
            List.length_cons]
          omega
        · intro c hc
          rcases List.mem_cons.mp hc with rfl | hc
          · rfl
          · exact h3 c hc
      · have hone : SpawnedChunk.liveCount
            ⟨sc.spawned_tiles.set a (some ⟨some (turf, st.next_entity)⟩)⟩ =
            sc.liveCount + 1 := by
          unfold SpawnedChunk.liveCount
          exact countP_set_succ _ sc.spawned_tiles a none
            (some ⟨some (turf, st.next_entity)⟩) hslot rfl rfl
        rw [hlive, hone, List.countP_cons]
        simp only [hocc, Option.isSome_some, eq_self_iff_true, if_true]
        omega
      · intro j hj
        have hja : j ≠ a := fun he => hj (he ▸ List.mem_cons_self a l)
        have hjl : j ∉ l := fun he => hj (List.mem_cons_of_mem a he)
        rw [hframe j hjl]
        exact List.get?_set_ne _ _ (fun he => hja he.symm)

end Ssnt

namespace Ssnt

theorem apply_index_call_position {md : MapData} {cp : Nat × Nat} {te : Nat}
    {data : LogicalChunk} {sc sc' : SpawnedChunk} {st st' : ApplyState} {i : Nat}
    (h : apply_index md cp te data (sc, st) i = some (sc', st')) :
    ∃ new, st'.calls = st.calls ++ new ∧ ∀ c ∈ new,
      c.position? = none ∨ c.position? = some (tile_world_position cp i) := by
  cases htile : data.tiles.get? i with
  | none =>
    simp only [apply_index, htile] at h
    exact Option.noConfusion h
  | some td =>
    cases hslot : sc.spawned_tiles.get? i with
    | none =>
      simp only [apply_index, htile, hslot] at h
      exact Option.noConfusion h
    | some slotv =>
      simp only [apply_index, htile, hslot] at h
      repeat' split at h
      all_goals (first
        | (exfalso; exact Option.noConfusion h)
        | (injection h with h; injection h with h1 h2))
      all_goals (first
        | exact absurd h1 (fun hx => Option.noConfusion hx)
        | (cases h1; cases h2;
           first
            | exact ⟨[], (List.append_nil _).symm, fun c hc => absurd hc (List.not_mem_nil c)⟩
            | exact ⟨_, rfl, fun c hc => by
                rcases List.mem_singleton.mp hc with rfl
                first
                  | exact Or.inl rfl
                  | exact Or.inr rfl⟩))

end Ssnt

namespace Ssnt

/-- C4: a second reconciliation call on the same logical chunk with all
change markers cleared and a prior shadow chunk returns that shadow chunk
unchanged and issues zero backend calls (the whole `ApplyState`, including
the call list, is untouched). -/
theorem apply_chunk_idempotent {sc : SpawnedChunk} {ci : Nat} {md : MapData}
    {te : Nat} {st : ApplyState} {data : LogicalChunk}
    (hchunk : md.chunk ci = some data)
    (hmarks : ∀ b ∈ data.changed_tiles, b = false) :
    apply_chunk (some sc) ci md te st = some (sc, st) := by
  simp only [apply_chunk, hchunk, changed_indicies_nil hmarks, Option.getD_some,
    List.foldlM_nil]
  rfl

/-- C4 witness: on a full-length chunk with no markers set, reconciliation
with a prior shadow chunk returns it bit-identically with zero calls. -/
theorem apply_chunk_idempotent_witness :
    apply_chunk (some SpawnedChunk.default) 0 exFullMap 7 ⟨[], 0, 0, 0⟩ =
      some (SpawnedChunk.default, ⟨[], 0, 0, 0⟩) :=
  apply_chunk_idempotent rfl (by decide)

/-- C7: teardown issues exactly one recursive destroy call per slot holding
a live object — in slot order, with no other call kinds — and slots without
a live object contribute no calls; the count equals the shadow chunk's
live-slot count. -/
theorem despawn_chunk_teardown (sc : SpawnedChunk) :
    despawn_chunk sc =
      (sc.spawned_tiles.filterMap (fun t => t.bind (fun x => x.spawned_turf))).map
        (fun p => BackendCall.destroy p.2) ∧
    (despawn_chunk sc).length = sc.liveCount ∧
    (∀ c ∈ despawn_chunk sc, c.isDestroy = true) := by
  refine ⟨despawn_chunk_eq sc, ?_, ?_⟩
  · rw [despawn_chunk_eq, List.length_map]
    exact length_filterMap_eq_countP _ _
  · intro c hc
    rw [despawn_chunk_eq] at hc
    obtain ⟨p, _, rfl⟩ := List.mem_map.mp hc
    rfl

/-- C10: reconciliation never clears an outer per-slot entry: an input slot
whose outer `Option SpawnedTile` is occupied is still occupied in the
returned shadow chunk. -/
theorem apply_chunk_outer_preserved {opt : Option SpawnedChunk} {ci : Nat}
    {md : MapData} {te : Nat} {st : ApplyState} {sc' : SpawnedChunk}
    {st' : ApplyState} {i : Nat} {t : SpawnedTile}
    (hres : apply_chunk opt ci md te st = some (sc', st'))
    (hocc : (opt.getD SpawnedChunk.default).spawned_tiles.get? i = some (some t)) :
    ∃ t', sc'.spawned_tiles.get? i = some (some t') := by
  simp only [apply_chunk] at hres
  cases hchunk : md.chunk ci with
  | none =>
    rw [hchunk] at hres
    exact Option.noConfusion hres
  | some data =>
    rw [hchunk] at hres
    exact (foldl_shape md _ te data _ _ st (sc', st') hres).2.2 i t hocc

/-- C10 witness: a slot whose outer entry is occupied (live object with an
unchanged snapshot) stays occupied after reconciliation. -/
theorem apply_chunk_outer_preserved_witness :
    ∃ t', (⟨[some ⟨some (⟨2, 0⟩, 41)⟩, none, none]⟩ : SpawnedChunk).spawned_tiles.get? 0 =
      some (some t') :=
  @apply_chunk_outer_preserved (some ⟨[some ⟨some (⟨2, 0⟩, 41)⟩, none, none]⟩) 0
    exWallMap 7 ⟨[], 100, 200, 0⟩ ⟨[some ⟨some (⟨2, 0⟩, 41)⟩, none, none]⟩
    ⟨[], 100, 200, 0⟩ 0 ⟨some (⟨2, 0⟩, 41)⟩ rfl rfl

/-- C3: when the only marked slot has no logical occupant while its shadow
slot holds a live object, the call issues exactly one recursive destroy on
the stored handle and clears the slot's live entry (`spawned_turf`) to
none. -/
theorem apply_chunk_removal {sc : SpawnedChunk} {ci : Nat} {md : MapData}
    {te : Nat} {st : ApplyState} {data : LogicalChunk} {i : Nat}
    {t : Option TileData} {d : TurfData} {ent : Nat}
    (hchunk : md.chunk ci = some data)
    (hi : data.changed_tiles.get? i = some true)
    (honly : ∀ j b, data.changed_tiles.get? j = some b → b = true → j = i)
    (htile : data.tiles.get? i = some t)
    (hturf : t.bind (fun td => td.turf) = none)
    (hslot : sc.spawned_tiles.get? i = some (some ⟨some (d, ent)⟩)) :
    apply_chunk (some sc) ci md te st =
      some (⟨sc.spawned_tiles.set i (some ⟨none⟩)⟩,
        { st with calls := st.calls ++ [BackendCall.destroy ent] }) := by
  rw [apply_chunk_single hchunk hi honly]
  exact apply_index_removal htile hturf hslot

/-- C3 witness: removing the occupant of slot 0 destroys handle 42 and
clears the slot's live entry. -/
theorem apply_chunk_removal_witness :
    apply_chunk (some ⟨[some ⟨some (⟨2, 0⟩, 42)⟩]⟩) 0 exEmptyMarkedMap 7 ⟨[], 0, 0, 0⟩ =
      some (⟨[some ⟨some (⟨2, 0⟩, 42)⟩].set 0 (some ⟨none⟩)⟩,
        ⟨[] ++ [BackendCall.destroy 42], 0, 0, 0⟩) :=
  apply_chunk_removal rfl rfl
    (by
      intro j b hj hb
      subst hb
      match j, hj with
      | 0, _ => rfl
      | n + 1, hj => exact Option.noConfusion hj)
    rfl rfl rfl

/-- C8: when the only marked slot's occupant has a resolvable definition
whose mesh is unavailable, the call logs one warning and changes nothing:
no backend call is issued and the returned shadow chunk is the prior one. -/
theorem apply_chunk_skip_missing_mesh {sc : SpawnedChunk} {ci : Nat}
    {md : MapData} {te : Nat} {st : ApplyState} {data : LogicalChunk} {i : Nat}
    {turf : TurfData} {d : TurfDefinition}
    (hchunk : md.chunk ci = some data)
    (hi : data.changed_tiles.get? i = some true)
    (honly : ∀ j b, data.changed_tiles.get? j = some b → b = true → j = i)
    (hocc : occupant_at data i = some turf)
    (hslot : (sc.spawned_tiles.get? i).isSome = true)
    (hdef : md.turf_definition turf.definition_id = some d)
    (hmesh : d.mesh = none) :
    apply_chunk (some sc) ci md te st =
      some (sc, { st with warnings := st.warnings + 1 }) := by
  rw [apply_chunk_single hchunk hi honly]
  obtain ⟨t, htile, hturf⟩ := Option.bind_eq_some.mp hocc
  exact apply_index_skip_mesh htile hturf hslot hdef hmesh

/-- C8 witness: an occupant whose definition 5 resolves but has no mesh is
skipped with one warning and no state change. -/
theorem apply_chunk_skip_missing_mesh_witness :
    apply_chunk (some ⟨[none]⟩) 0 exNoMeshMap 7 ⟨[], 0, 0, 0⟩ =
      some (⟨[none]⟩, ⟨[], 0, 0, 1⟩) :=
  apply_chunk_skip_missing_mesh (i := 0) rfl rfl
    (by
      intro j b hj hb
      subst hb
      match j, hj with
      | 0, _ => rfl
      | n + 1, hj => exact Option.noConfusion hj)
    rfl rfl rfl rfl

/-- C1 counterexample: a processed slot referencing an unresolvable
definition id makes the whole call fail (the `expect` panics, modelled by
`none`); the error is not merely logged. -/
theorem apply_chunk_missing_def_panics :
    apply_chunk (some ⟨[none]⟩) 0 exMissingDefMap 7 ⟨[], 0, 0, 0⟩ = none := rfl

/-- C1 amended: a successful reconciliation call implies that every
processed slot's occupant references a resolvable definition id — an
unresolvable id panics the call instead of being logged and skipped. -/
theorem apply_chunk_success_definition_resolves {opt : Option SpawnedChunk}
    {ci : Nat} {md : MapData} {te : Nat} {st : ApplyState}
    {r : SpawnedChunk × ApplyState} {data : LogicalChunk} {i : Nat}
    {turf : TurfData}
    (hres : apply_chunk opt ci md te st = some r)
    (hchunk : md.chunk ci = some data)
    (hi : i ∈ changed_indicies opt data)
    (hocc : occupant_at data i = some turf) :
    (md.turf_definition turf.definition_id).isSome = true := by
  by_contra hne
  have hdef : md.turf_definition turf.definition_id = none := by
    cases hd : md.turf_definition turf.definition_id with
    | none => rfl
    | some d =>
      rw [hd] at hne
      exact absurd rfl hne
  simp only [apply_chunk, hchunk] at hres
  rw [foldlM_none_of_mem _ _ i hi
    (@apply_index_missing_def md (MapData.position_from_chunk_index md.size ci)
      te data i turf hocc hdef) _] at hres
  exact Option.noConfusion hres

/-- C1 amended witness: a successful call on a chunk whose processed slot 0
is occupied by definition 2 shows that definition 2 resolves. -/
theorem apply_chunk_success_definition_resolves_witness :
    (exWallMap.turf_definition (TurfData.mk 2 0).definition_id).isSome = true :=
  @apply_chunk_success_definition_resolves (some ⟨[none, none, none]⟩) 0 exWallMap 7
    ⟨[], 100, 200, 0⟩
    (⟨[some ⟨some (⟨2, 0⟩, 100)⟩, none, none]⟩,
      ⟨[BackendCall.create 100 3 200 (0, 0, 0) 7], 101, 201, 0⟩)
    { tiles := [some ⟨some ⟨2, 0⟩⟩, none, some ⟨none⟩],
      changed_tiles := [true, false, false] }
    0 ⟨2, 0⟩ rfl rfl (by decide) rfl

end Ssnt

namespace Ssnt

/-- C2: at the failing input — stored snapshot `(1, 0)` under handle 42,
new occupant snapshot `(2, 0)`, mesh available — the call issues the
in-place update on handle 42 (no create, no destroy, handle kept) but
leaves the stored snapshot at `(1, 0)` instead of overwriting it with
`(2, 0)`. -/
theorem apply_chunk_update_keeps_stale_snapshot :
    apply_chunk (some ⟨[some ⟨some (⟨1, 0⟩, 42)⟩]⟩) 0 exUpdateMap 9 ⟨[], 100, 200, 0⟩ =
      some (⟨[some ⟨some (⟨1, 0⟩, 42)⟩]⟩,
        ⟨[BackendCall.update 42 11 200 (0, 0, 0)], 100, 201, 0⟩) := rfl

/-- C6 counterexample: with exactly one marked slot (slot 0, no occupant,
no shadow object) the call issues zero backend calls, not exactly one. -/
theorem apply_chunk_one_marked_zero_calls :
    exNoopMap.chunk 0 = some { tiles := [none, none], changed_tiles := [true, false] } ∧
    apply_chunk (some ⟨[none, none]⟩) 0 exNoopMap 5 ⟨[], 0, 0, 0⟩ =
      some (⟨[none, none]⟩, ⟨[], 0, 0, 0⟩) := ⟨rfl, rfl⟩

/-- C6 amended: with a prior shadow chunk and exactly one marked slot `i`,
the call issues at most one backend call (zero when the per-index table
dictates a no-op or the slot is skipped) and the returned shadow chunk
differs from the prior one at most at slot `i`. -/
theorem apply_chunk_incremental_frame {sc : SpawnedChunk} {ci : Nat}
    {md : MapData} {te : Nat} {st : ApplyState} {sc' : SpawnedChunk}
    {st' : ApplyState} {data : LogicalChunk} {i : Nat}
    (hchunk : md.chunk ci = some data)
    (hi : data.changed_tiles.get? i = some true)
    (honly : ∀ j b, data.changed_tiles.get? j = some b → b = true → j = i)
    (hres : apply_chunk (some sc) ci md te st = some (sc', st')) :
    (∃ new, st'.calls = st.calls ++ new ∧ new.length ≤ 1) ∧
    ∀ j, j ≠ i → sc'.spawned_tiles.get? j = sc.spawned_tiles.get? j := by
  rw [apply_chunk_single hchunk hi honly] at hres
  obtain ⟨new, hc, hl, hor⟩ := apply_index_shape2 hres
  refine ⟨⟨new, hc, hl⟩, ?_⟩
  intro j hj
  rcases hor with rfl | ⟨t, rfl⟩
  · rfl
  · exact List.get?_set_ne _ _ (fun he => hj he.symm)

/-- C6 amended witness: with only slot 0 marked, the creation of its
occupant is the single new call and every other slot is unchanged. -/
theorem apply_chunk_incremental_frame_witness :
    (∃ new, ([BackendCall.create 100 3 200 (0, 0, 0) 7] : List BackendCall) =
        [] ++ new ∧ new.length ≤ 1) ∧
    ∀ j, j ≠ 0 →
      (⟨[some ⟨some (⟨2, 0⟩, 100)⟩, none, none]⟩ : SpawnedChunk).spawned_tiles.get? j =
        (⟨[none, none, none]⟩ : SpawnedChunk).spawned_tiles.get? j :=
  @apply_chunk_incremental_frame ⟨[none, none, none]⟩ 0 exWallMap 7
    ⟨[], 100, 200, 0⟩ ⟨[some ⟨some (⟨2, 0⟩, 100)⟩, none, none]⟩
    ⟨[BackendCall.create 100 3 200 (0, 0, 0) 7], 101, 201, 0⟩
    { tiles := [some ⟨some ⟨2, 0⟩⟩, none, some ⟨none⟩],
      changed_tiles := [true, false, false] }
    0 rfl rfl
    (by
      intro j b hj hb
      subst hb
      match j, hj with
      | 0, _ => rfl
      | 1, hj => exact Bool.noConfusion (Option.some.inj hj)
      | 2, hj => exact Bool.noConfusion (Option.some.inj hj)
      | n + 3, hj => exact Option.noConfusion hj)
    rfl

/-- C9: every backend call issued for the single marked slot `i` that
carries a world position (create or update) places it at the chunk origin
(row-major chunk grid position times the chunk side) plus the row-major
local offset of `i`, with vertical coordinate fixed to 0; and the worked
example — grid width 10, chunk index 3, slot 17 — yields `(49, 0, 1)`. -/
theorem apply_chunk_call_positions {sc : SpawnedChunk} {ci : Nat}
    {md : MapData} {te : Nat} {st : ApplyState} {sc' : SpawnedChunk}
    {st' : ApplyState} {data : LogicalChunk} {i : Nat}
    (hchunk : md.chunk ci = some data)
    (hi : data.changed_tiles.get? i = some true)
    (honly : ∀ j b, data.changed_tiles.get? j = some b → b = true → j = i)
    (hres : apply_chunk (some sc) ci md te st = some (sc', st')) :
    (∃ new, st'.calls = st.calls ++ new ∧ ∀ c ∈ new,
      c.position? = none ∨
      c.position? = some (ci % md.size.1 * CHUNK_SIZE + i % CHUNK_SIZE, 0,
        ci / md.size.1 * CHUNK_SIZE + i / CHUNK_SIZE)) ∧
    tile_world_position (MapData.position_from_chunk_index (10, 10) 3) 17 = (49, 0, 1) := by
  rw [apply_chunk_single hchunk hi honly] at hres
  have hpos : tile_world_position (MapData.position_from_chunk_index md.size ci) i =
      (ci % md.size.1 * CHUNK_SIZE + i % CHUNK_SIZE, 0,
       ci / md.size.1 * CHUNK_SIZE + i / CHUNK_SIZE) := rfl
  obtain ⟨new, h1, h2⟩ := apply_index_call_position hres
  refine ⟨⟨new, h1, fun c hc => ?_⟩, by decide⟩
  rw [← hpos]
  exact h2 c hc

/-- C9 witness: the creation call for slot 0 of chunk 0 carries position
`(0, 0, 0)`, matching the origin-plus-offset formula. -/
theorem apply_chunk_call_positions_witness :
    (∃ new, ([BackendCall.create 100 3 200 (0, 0, 0) 7] : List BackendCall) =
        [] ++ new ∧ ∀ c ∈ new,
      c.position? = none ∨
      c.position? = some (0 % exWallMap.size.1 * CHUNK_SIZE + 0 % CHUNK_SIZE, 0,
        0 / exWallMap.size.1 * CHUNK_SIZE + 0 / CHUNK_SIZE)) ∧
    tile_world_position (MapData.position_from_chunk_index (10, 10) 3) 17 = (49, 0, 1) :=
  @apply_chunk_call_positions ⟨[none, none, none]⟩ 0 exWallMap 7
    ⟨[], 100, 200, 0⟩ ⟨[some ⟨some (⟨2, 0⟩, 100)⟩, none, none]⟩
    ⟨[BackendCall.create 100 3 200 (0, 0, 0) 7], 101, 201, 0⟩
    { tiles := [some ⟨some ⟨2, 0⟩⟩, none, some ⟨none⟩],
      changed_tiles := [true, false, false] }
    0 rfl rfl
    (by
      intro j b hj hb
      subst hb
      match j, hj with
      | 0, _ => rfl
      | 1, hj => exact Bool.noConfusion (Option.some.inj hj)
      | 2, hj => exact Bool.noConfusion (Option.some.inj hj)
      | n + 3, hj => exact Option.noConfusion hj)
    rfl

/-- C5: a reconciliation call with no prior shadow state processes all
`CHUNK_LENGTH` slot indices; when every occupant's assets resolve and the
chunk holds exactly `N` occupied tiles, it issues exactly `N` backend
calls, all of them creations, and returns a shadow chunk with exactly `N`
live slots. -/
theorem apply_chunk_full_rebuild {ci : Nat} {md : MapData} {te e m w : Nat}
    {data : LogicalChunk} {N : Nat}
    (hchunk : md.chunk ci = some data)
    (hlen : data.tiles.length = CHUNK_LENGTH)
    (hassets : ∀ i ∈ List.range CHUNK_LENGTH, slot_assets_ok md data i = true)
    (hN : data.tiles.countP tile_has_turf = N) :
    changed_indicies none data = List.range CHUNK_LENGTH ∧
    ∃ sc' st', apply_chunk none ci md te ⟨[], e, m, w⟩ = some (sc', st') ∧
      st'.calls.length = N ∧ (∀ c ∈ st'.calls, c.isCreate = true) ∧
      sc'.liveCount = N := by
  have hchanged : changed_indicies none data = List.range CHUNK_LENGTH := by
    unfold changed_indicies
    rw [hlen]
  have hcount : (List.range data.tiles.length).countP
      (fun i => (occupant_at data i).isSome) = data.tiles.countP tile_has_turf := by
    show (List.range data.tiles.length).countP
        (fun i => ((data.tiles.get? i).bind (fun t => t.bind (fun td => td.turf))).isSome) =
      data.tiles.countP (fun a => (a.bind (fun td => td.turf)).isSome)
    exact countP_range_bind (fun t => t.bind (fun td => td.turf)) data.tiles
  have hyp : ∀ i ∈ List.range CHUNK_LENGTH, (data.tiles.get? i).isSome = true ∧
      SpawnedChunk.default.spawned_tiles.get? i = some none ∧
      slot_assets_ok md data i = true := by
    intro i hi
    have hlt : i < CHUNK_LENGTH := List.mem_range.mp hi
    refine ⟨?_, ?_, hassets i hi⟩
    · cases hg : data.tiles.get? i with
      | none =>
        have := List.get?_eq_none.mp hg
        omega
      | some u => rfl
    · exact get?_replicate_lt none hlt
  obtain ⟨sc', st', hfold, ⟨new, hc1, hc2, hc3⟩, hlive, _⟩ :=
    @foldl_fresh md (MapData.position_from_chunk_index md.size ci) te data
      (List.range CHUNK_LENGTH) SpawnedChunk.default ⟨[], e, m, w⟩
      (List.nodup_range _) hyp
  refine ⟨hchanged, sc', st', ?_, ?_, ?_, ?_⟩
  · simp only [apply_chunk, hchunk, Option.getD_none]
    rw [hchanged]
    exact hfold
  · rw [hc1, List.nil_append, hc2, ← hlen, hcount, hN]
  · intro c hc
    apply hc3
    rw [hc1, List.nil_append] at hc
    exact hc
  · have h0 : SpawnedChunk.default.liveCount = 0 := by
      unfold SpawnedChunk.default SpawnedChunk.liveCount
      simp [List.countP_replicate]
    rw [hlive, h0, Nat.zero_add, ← hlen, hcount, hN]

set_option maxRecDepth 8192 in
set_option maxHeartbeats 1000000 in
/-- C5 witness: a fresh materialization of a full-length chunk with one
occupied tile issues exactly one creation and yields one live slot. -/
theorem apply_chunk_full_rebuild_witness :
    changed_indicies none
      { tiles := some ⟨some ⟨2, 0⟩⟩ :: List.replicate 255 none,
        changed_tiles := List.replicate 256 false } = List.range CHUNK_LENGTH ∧
    ∃ sc' st', apply_chunk none 0 exFullMap 7 ⟨[], 100, 200, 0⟩ = some (sc', st') ∧
      st'.calls.length = 1 ∧ (∀ c ∈ st'.calls, c.isCreate = true) ∧
      sc'.liveCount = 1 :=
  apply_chunk_full_rebuild rfl rfl (by decide) rfl

end Ssnt
